import Mathlib

/-!
# Verification of the mmap-based allocator (`memalloc-rust`)

Shallow embedding of `src/allocator.rs` and `src/header.rs`, plus a model of
the `Bucket` engine (whose source module is declared in `lib.rs` but not part
of the provided sources) reconstructed from the specification.

Machine addresses are modelled as natural numbers; `NonNull<u8>` becomes the
subtype of positive naturals.  Fallible operations return `Except`/`Option`;
operations whose precondition violation is undefined behaviour return
`Option`, with `none` standing for UB.
-/

namespace Memalloc

/-- Model of `std::alloc::AllocError` (a unit-like zero-sized error type). -/
inductive AllocError where
  | mk
deriving DecidableEq, Repr

/-- Model of `std::alloc::Layout`: a size in bytes and an alignment.
The alignment being a power of two is a `Layout` invariant enforced by the
standard library, irrelevant to the code paths modelled here. -/
structure Layout where
  size : Nat
  align : Nat
deriving DecidableEq, Repr

/-- Model of `NonNull<u8>`: a machine address that is not null. -/
abbrev NonNullAddr := { n : Nat // 0 < n }

/-! ## `src/header.rs` — `Header<T>` address transforms

`Header<T>` is `Node<T>`; the two transforms are typed pointer offsets by
exactly one `Header<T>`.  We parameterize over `headerSize`, the value of
`size_of::<Header<T>>()` (always positive: the node holds two pointers). -/

/-- `Header::from_content_address(address)`:
`address.as_ptr().cast::<Self>().offset(-1)`, i.e. the address exactly
`size_of::<Header<T>>()` bytes below the content address.  Addresses are
naturals; the precondition that `address` points right after a valid header
guarantees `headerSize ≤ address`, under which truncated subtraction agrees
with pointer arithmetic. -/
def fromContentAddress (headerSize : Nat) (address : NonNullAddr) : Nat :=
  address.val - headerSize

/-- `Header::content_address_of(header)`: `header.as_ptr().offset(1)`, i.e.
the address exactly `size_of::<Header<T>>()` bytes above the header. -/
def contentAddressOf (headerSize : Nat) (header : Nat) : Nat :=
  header + headerSize

/-! ## `src/allocator.rs` — `InternalAllocator<N>` -/

/-- Model of one `Bucket` (the bucket engine itself is modelled further
below; `InternalAllocator` only needs its state).  A bucket owns a list of
regions and the free list over their blocks. -/
structure Block where
  /-- Size in bytes of the content, excluding the block header. -/
  size : Nat
  /-- Whether the block is currently free. -/
  isFree : Bool
deriving DecidableEq, Repr

/-- One mapped region: its base address, total mapped length, and the blocks
it is subdivided into, in address order. -/
structure Region where
  base : NonNullAddr
  length : Nat
  blocks : List Block
deriving DecidableEq, Repr

/-- One size-class bucket: its region list and its free list.  The free list
holds the content addresses of the free blocks, in insertion order. -/
structure Bucket where
  regions : List Region
  freeList : List NonNullAddr
deriving DecidableEq, Repr

/-- `Bucket::new()`: an empty bucket, no regions, no free blocks. -/
def Bucket.new : Bucket := { regions := [], freeList := [] }

/-- Model of `InternalAllocator<N>`: the per-class sizes, the fixed-size
buckets (one per size), and the dynamic bucket for oversized requests.
The const generic `N` becomes the common length of `sizes` and `buckets`. -/
structure InternalAllocator where
  sizes : List Nat
  buckets : List Bucket
  dynBucket : Bucket
deriving DecidableEq, Repr

/-- `InternalAllocator::with_bucket_sizes(sizes)`: stores the given sizes
verbatim and creates one empty bucket per size plus the dynamic bucket.
No validation of any kind is performed on `sizes`. -/
def InternalAllocator.withBucketSizes (sizes : List Nat) : InternalAllocator :=
  { sizes := sizes
    buckets := sizes.map fun _ => Bucket.new
    dynBucket := Bucket.new }

/-- The loop body of `InternalAllocator::dispatch`: scan the sizes in index
order, return the index of the first class with `layout.size() <= sizes[i]`.
`none` designates the dynamic bucket (`&mut self.dyn_bucket`). -/
def dispatchAux (size : Nat) : List Nat → Option Nat
  | [] => none
  | s :: rest => if size ≤ s then some 0 else (dispatchAux size rest).map Nat.succ

/-- `InternalAllocator::dispatch(layout)`: index of the bucket where `layout`
should be allocated; `none` stands for the dynamic bucket. -/
def InternalAllocator.dispatch (ia : InternalAllocator) (layout : Layout) : Option Nat :=
  dispatchAux layout.size ia.sizes

/-! ## The bucket engine

Modelled from the spec: the modules `bucket`, `block`, `region`, `freelist`
and `list` are declared in `lib.rs` but their sources are not provided, so
`Bucket::allocate`/`Bucket::deallocate`, `Region::acquire`/`Region::release`,
`Block::split`/`coalesce` and the free-list operations below follow the
specification text (§4.2–§4.5) verbatim.  `Config` collects the layout
constants (`PAGE_SIZE`, the two header sizes, the minimum useful block size)
and the page provider, modelled as an oracle from a mapping length to an
optional page base address (`none` = mapping failure). -/
structure Config where
  pageSize : Nat
  regionHeaderSize : Nat
  blockHeaderSize : Nat
  minBlockSize : Nat
  mmap : Nat → Option NonNullAddr

/-- Modelled from the spec: mapping lengths are "rounded up to the page
size" (§4.2). -/
def Config.pageAlign (c : Config) (n : Nat) : Nat :=
  ((n + c.pageSize - 1) / c.pageSize) * c.pageSize

/-- Content addresses of the blocks of a region, in address order, starting
with the block whose header begins at `pos`.  Each block occupies one block
header followed by `size` content bytes. -/
def blockEntriesFrom (hB : Nat) (pos : Nat) : List Block → List (Nat × Block)
  | [] => []
  | b :: bs => (pos + hB, b) :: blockEntriesFrom hB (pos + hB + b.size) bs

/-- Content addresses of the blocks of a region: the first block header
starts right after the region header. -/
def Region.blockEntries (c : Config) (r : Region) : List (Nat × Block) :=
  blockEntriesFrom c.blockHeaderSize (r.base.val + c.regionHeaderSize) r.blocks

/-- Index and value of the block of `r` whose content address is `addr`. -/
def Region.findBlock (c : Config) (r : Region) (addr : Nat) : Option (Nat × Block) :=
  go 0 (r.blockEntries c)
where
  go (j : Nat) : List (Nat × Block) → Option (Nat × Block)
    | [] => none
    | (a, b) :: rest => if a = addr then some (j, b) else go (j + 1) rest

/-- Modelled from the spec: resolving a content address to its block
(§4.5 deallocate step 1, via the header transform and the block's region
back-reference).  Returns region index, block index, region and block. -/
def Bucket.findBlock (c : Config) (bk : Bucket) (addr : Nat) :
    Option (Nat × Nat × Region × Block) :=
  go 0 bk.regions
where
  go (i : Nat) : List Region → Option (Nat × Nat × Region × Block)
    | [] => none
    | r :: rest =>
      match r.findBlock c addr with
      | some (j, b) => some (i, j, r, b)
      | none => go (i + 1) rest

/-- Modelled from the spec: `findFirstFit(minSize)` "returns the first Block
whose size ≥ minSize" scanning the free list in insertion order (§4.4).
Returns the content address together with the resolved block position. -/
def Bucket.findFirstFit (c : Config) (bk : Bucket) (minSize : Nat) :
    Option (NonNullAddr × Nat × Nat × Region × Block) :=
  go bk.freeList
where
  go : List NonNullAddr → Option (NonNullAddr × Nat × Nat × Region × Block)
    | [] => none
    | a :: rest =>
      match bk.findBlock c a.val with
      | some (i, j, r, b) => if minSize ≤ b.size then some (a, i, j, r, b) else go rest
      | none => go rest

/-- Modelled from the spec: §4.5 allocate step 2 applied to the block at
position `(i, j)` with content address `addr`: remove it from the free list,
`split` it "if `block.size` exceeds `requestedSize` by more than one
header's worth of space plus a minimum useful remainder" (§4.3) — carving a
trailing free block that joins the free list — and mark it used. -/
def Bucket.useBlock (c : Config) (bk : Bucket) (i j : Nat) (r : Region) (blk : Block)
    (addr : NonNullAddr) (reqSize : Nat) : Bucket :=
  let worthSplitting := reqSize + c.blockHeaderSize + c.minBlockSize < blk.size
  let newBlocks : List Block :=
    if worthSplitting then
      [⟨reqSize, false⟩, ⟨blk.size - reqSize - c.blockHeaderSize, true⟩]
    else
      [⟨blk.size, false⟩]
  let fl0 := bk.freeList.filter fun a => decide (a ≠ addr)
  let fl1 :=
    if worthSplitting then
      fl0 ++ [⟨addr.val + reqSize + c.blockHeaderSize,
        Nat.lt_of_lt_of_le addr.2
          (Nat.le_trans (Nat.le_add_right _ _) (Nat.le_add_right _ _))⟩]
    else fl0
  { regions := bk.regions.set i { r with blocks := r.blocks.take j ++ newBlocks ++ r.blocks.drop (j + 1) }
    freeList := fl1 }

/-- Modelled from the spec: `Bucket::allocate` (§4.5) — first-fit search of
the free list; on a miss, `Region.acquire` a new region "of at least
`minimumLength + regionOverhead`, rounded up to the page size" holding one
initial block spanning the usable remainder (§4.2), append it to the region
list and treat its initial block as the fit; fails only if the page
provider fails, leaving the bucket untouched. -/
def Bucket.allocate (c : Config) (bk : Bucket) (layout : Layout) :
    Except AllocError NonNullAddr × Bucket :=
  match bk.findFirstFit c layout.size with
  | some (addr, i, j, r, blk) =>
    (Except.ok addr, bk.useBlock c i j r blk addr layout.size)
  | none =>
    let len := c.pageAlign (layout.size + c.regionHeaderSize + c.blockHeaderSize)
    match c.mmap len with
    | none => (Except.error AllocError.mk, bk)
    | some base =>
      let initBlock : Block := ⟨len - c.regionHeaderSize - c.blockHeaderSize, true⟩
      let r : Region := ⟨base, len, [initBlock]⟩
      let bk1 : Bucket := { regions := bk.regions ++ [r], freeList := bk.freeList }
      let addr : NonNullAddr := ⟨base.val + c.regionHeaderSize + c.blockHeaderSize,
        Nat.lt_of_lt_of_le base.2
          (Nat.le_trans (Nat.le_add_right _ _) (Nat.le_add_right _ _))⟩
      (Except.ok addr, bk1.useBlock c bk.regions.length 0 r initBlock addr layout.size)

/-- Modelled from the spec: `coalesce` forward "repeatedly until no further
adjacent free Block exists" (§4.5 deallocate step 2, §4.3): starting from
`blk` at content address `addr`, merge every immediately following free
block into it (absorbing the neighbour's header).  Returns the merged
block, the surviving suffix of following blocks, and the content addresses
of the absorbed neighbours (to be removed from the free list). -/
def coalesceFwd (hB : Nat) (blk : Block) (addr : Nat) :
    List Block → Block × List Block × List Nat
  | [] => (blk, [], [])
  | b :: rest =>
    if b.isFree then
      let neighborAddr := addr + blk.size + hB
      let merged : Block := ⟨blk.size + hB + b.size, blk.isFree⟩
      let (fin, out, removed) := coalesceFwd hB merged addr rest
      (fin, out, neighborAddr :: removed)
    else (blk, b :: rest, [])

/-- Modelled from the spec: `Bucket::deallocate(contentAddress, size)`
(§4.5): resolve the block, mark it free, insert it into the free list,
coalesce forward repeatedly; "if the resulting Block spans the Region's
entire usable content, remove the Region from the region list and
`Region.release` it" (removing its block from the free list), otherwise
leave the region resident.  An address not obtained from a prior allocate
is a precondition violation — undefined behaviour, modelled as `none`. -/
def Bucket.deallocate (c : Config) (bk : Bucket) (addr : NonNullAddr) (_layout : Layout) :
    Option Bucket :=
  match bk.findBlock c addr.val with
  | none => none
  | some (i, j, r, blk) =>
    let freed : Block := { blk with isFree := true }
    let (merged, after, removed) :=
      coalesceFwd c.blockHeaderSize freed addr.val (r.blocks.drop (j + 1))
    let newBlocks := r.blocks.take j ++ merged :: after
    let fl1 := (bk.freeList ++ [addr]).filter fun a => decide (a.val ∉ removed)
    if merged.size = r.length - c.regionHeaderSize - c.blockHeaderSize then
      some { regions := bk.regions.eraseIdx i
             freeList := fl1.filter fun a => decide (a ≠ addr) }
    else
      some { regions := bk.regions.set i { r with blocks := newBlocks }
             freeList := fl1 }

/-! ## `src/allocator.rs` — `InternalAllocator` allocate/deallocate and the
thread-safe facade `MmapAllocator` -/

/-- `InternalAllocator::allocate(layout)`: `self.dispatch(layout).allocate(layout)` —
delegates to the dispatched bucket and threads its updated state back. -/
def InternalAllocator.allocate (c : Config) (ia : InternalAllocator) (layout : Layout) :
    Except AllocError NonNullAddr × InternalAllocator :=
  match ia.dispatch layout with
  | some i =>
    let (res, b1) := Bucket.allocate c (ia.buckets.getD i Bucket.new) layout
    (res, { ia with buckets := ia.buckets.set i b1 })
  | none =>
    let (res, b1) := Bucket.allocate c ia.dynBucket layout
    (res, { ia with dynBucket := b1 })

/-- `InternalAllocator::deallocate(address, layout)`:
`self.dispatch(layout).deallocate(address, layout)`. -/
def InternalAllocator.deallocate (c : Config) (ia : InternalAllocator)
    (addr : NonNullAddr) (layout : Layout) : Option InternalAllocator :=
  match ia.dispatch layout with
  | some i =>
    (Bucket.deallocate c (ia.buckets.getD i Bucket.new) addr layout).map
      fun b1 => { ia with buckets := ia.buckets.set i b1 }
  | none =>
    (Bucket.deallocate c ia.dynBucket addr layout).map
      fun b1 => { ia with dynBucket := b1 }

/-- Model of `MmapAllocator<N>`: the internal allocator behind a
`Mutex`.  The only observable lock failure in `std` is poisoning, and a
poisoned mutex fails every subsequent `lock()` call, so the lock state is
one persistent boolean. -/
structure MmapAllocator where
  poisoned : Bool
  allocator : InternalAllocator
deriving DecidableEq, Repr

/-- `MmapAllocator::with_default_config()`: 3 buckets of sizes 128, 1024
and 8192. -/
def MmapAllocator.withDefaultConfig : MmapAllocator :=
  { poisoned := false, allocator := InternalAllocator.withBucketSizes [128, 1024, 8192] }

/-- `MmapAllocator::with_bucket_sizes(sizes)`. -/
def MmapAllocator.withBucketSizes (sizes : List Nat) : MmapAllocator :=
  { poisoned := false, allocator := InternalAllocator.withBucketSizes sizes }

/-- `Allocator::allocate` for `MmapAllocator`: on `lock()` failure return
`Err(AllocError)`; otherwise delegate to the internal allocator. -/
def MmapAllocator.allocate (c : Config) (st : MmapAllocator) (layout : Layout) :
    Except AllocError NonNullAddr × MmapAllocator :=
  if st.poisoned then (Except.error AllocError.mk, st)
  else
    let (res, ia1) := st.allocator.allocate c layout
    (res, { st with allocator := ia1 })

/-- `Allocator::deallocate` for `MmapAllocator`: `if let Ok(..) = lock()`
delegate, otherwise do nothing at all. -/
def MmapAllocator.deallocate (c : Config) (st : MmapAllocator)
    (addr : NonNullAddr) (layout : Layout) : Option MmapAllocator :=
  if st.poisoned then some st
  else (st.allocator.deallocate c addr layout).map fun ia1 => { st with allocator := ia1 }

/-- `GlobalAlloc::alloc` for `MmapAllocator`: `Ok(address)` becomes the raw
address, `Err(_)` becomes the null pointer. -/
def MmapAllocator.alloc (c : Config) (st : MmapAllocator) (layout : Layout) :
    Nat × MmapAllocator :=
  let (res, st1) := st.allocate c layout
  (match res with | .ok a => a.val | .error _ => 0, st1)

/-- `NonNull::new_unchecked(ptr)`: calling it on a null pointer is
undefined behaviour, modelled as `none`. -/
def nonNullNewUnchecked (p : Nat) : Option NonNullAddr :=
  if h : 0 < p then some ⟨p, h⟩ else none

/-- `GlobalAlloc::dealloc` for `MmapAllocator`:
`self.deallocate(NonNull::new_unchecked(ptr), layout)` — no null check. -/
def MmapAllocator.dealloc (c : Config) (st : MmapAllocator) (p : Nat) (layout : Layout) :
    Option MmapAllocator :=
  match nonNullNewUnchecked p with
  | none => none
  | some addr => st.deallocate c addr layout

/-! ## Concrete instances used by the witnesses -/

/-- A concrete configuration whose page provider always succeeds, returning
page 4096. -/
def cfgW : Config :=
  { pageSize := 4096, regionHeaderSize := 16, blockHeaderSize := 16,
    minBlockSize := 8, mmap := fun _ => some ⟨4096, by decide⟩ }

/-- A concrete configuration whose page provider always fails. -/
def cfgFail : Config :=
  { pageSize := 4096, regionHeaderSize := 16, blockHeaderSize := 16,
    minBlockSize := 8, mmap := fun _ => none }

/-! ## Theorems -/

/-- Claim C5: the header/content address transforms are pure fixed-offset
maps — `from_content_address` lands exactly one `Header<T>` below the
content address, `content_address_of` exactly one `Header<T>` above the
header, and the two are mutually inverse (on content addresses preceded by
a header, i.e. `headerSize ≤ a`). -/
theorem header_transforms_inverse (headerSize : Nat) (hpos : 0 < headerSize)
    (a : NonNullAddr) (ha : headerSize ≤ a.val) (hdr : Nat) :
    fromContentAddress headerSize a = a.val - headerSize
  ∧ contentAddressOf headerSize hdr = hdr + headerSize
  ∧ contentAddressOf headerSize (fromContentAddress headerSize a) = a.val
  ∧ fromContentAddress headerSize
      ⟨contentAddressOf headerSize hdr,
        Nat.lt_of_lt_of_le hpos (Nat.le_add_left _ _)⟩ = hdr := by
  refine ⟨rfl, rfl, ?_, ?_⟩
  · show a.val - headerSize + headerSize = a.val
    omega
  · show hdr + headerSize - headerSize = hdr
    omega

/-- Witness for C5 at `headerSize = 16`, content address `4128`, header
address `100`. -/
theorem header_transforms_inverse_witness :
    fromContentAddress 16 ⟨4128, by decide⟩ = 4112
  ∧ contentAddressOf 16 100 = 116
  ∧ contentAddressOf 16 (fromContentAddress 16 ⟨4128, by decide⟩) = 4128
  ∧ fromContentAddress 16 ⟨contentAddressOf 16 100, by decide⟩ = 100 :=
  header_transforms_inverse 16 (by decide) ⟨4128, by decide⟩ (by decide) 100

/-- Claim C2: when the mutex is poisoned, `allocate` returns
`Err(AllocError)` leaving the whole state (and in particular the internal
allocator) untouched, and `deallocate` returns normally having done
nothing. -/
theorem lock_failure_behaviour (c : Config) (st : MmapAllocator)
    (addr : NonNullAddr) (layout : Layout) (h : st.poisoned = true) :
    MmapAllocator.allocate c st layout = (Except.error AllocError.mk, st)
  ∧ MmapAllocator.deallocate c st addr layout = some st := by
  constructor <;> simp [MmapAllocator.allocate, MmapAllocator.deallocate, h]

/-- Witness for C2 on a concrete poisoned allocator. -/
theorem lock_failure_behaviour_witness :
    MmapAllocator.allocate cfgW
        { MmapAllocator.withDefaultConfig with poisoned := true } ⟨8, 8⟩
      = (Except.error AllocError.mk,
         { MmapAllocator.withDefaultConfig with poisoned := true })
  ∧ MmapAllocator.deallocate cfgW
        { MmapAllocator.withDefaultConfig with poisoned := true } ⟨1, by decide⟩ ⟨8, 8⟩
      = some { MmapAllocator.withDefaultConfig with poisoned := true } :=
  lock_failure_behaviour cfgW _ ⟨1, by decide⟩ ⟨8, 8⟩ rfl

/-- Claim C6, counterexample: construction admits a configuration that is
not strictly increasing (and not positive) — `with_bucket_sizes` performs
no validation whatsoever, it stores the sizes verbatim. -/
theorem with_bucket_sizes_no_validation :
    (MmapAllocator.withBucketSizes [0, 0]).allocator.sizes = [0, 0]
  ∧ (InternalAllocator.withBucketSizes [0, 0]).sizes = [0, 0]
  ∧ ¬ List.Chain' (· < ·) (MmapAllocator.withBucketSizes [0, 0]).allocator.sizes := by
  refine ⟨rfl, rfl, ?_⟩
  simp [MmapAllocator.withBucketSizes, InternalAllocator.withBucketSizes, List.chain'_cons]

/-- Claim C6 as amended: construction stores the supplied size classes
verbatim with no validation (any list, including non-increasing or zero
classes, is admitted), and only the default configuration — the 3 classes
128, 1024, 8192 — is strictly increasing with all classes positive. -/
theorem bucket_sizes_construction (sizes : List Nat) :
    (MmapAllocator.withBucketSizes sizes).allocator.sizes = sizes
  ∧ (InternalAllocator.withBucketSizes sizes).sizes = sizes
  ∧ MmapAllocator.withDefaultConfig.allocator.sizes = [128, 1024, 8192]
  ∧ List.Chain' (· < ·) MmapAllocator.withDefaultConfig.allocator.sizes
  ∧ (MmapAllocator.withDefaultConfig.allocator.sizes.all fun s => decide (0 < s)) = true := by
  refine ⟨rfl, rfl, rfl, ?_, ?_⟩
  · simp [MmapAllocator.withDefaultConfig, InternalAllocator.withBucketSizes, List.chain'_cons]
  · decide

/-- Claim C10: `GlobalAlloc::dealloc` performs no null check — for every
non-null pointer it delegates to the generic `deallocate` with the same
layout, and a null pointer hits `NonNull::new_unchecked`'s precondition
(undefined behaviour, modelled as `none`). -/
theorem dealloc_no_null_check (c : Config) (st : MmapAllocator) (p : Nat)
    (layout : Layout) (hp : 0 < p) :
    MmapAllocator.dealloc c st p layout = MmapAllocator.deallocate c st ⟨p, hp⟩ layout
  ∧ MmapAllocator.dealloc c st 0 layout = none := by
  constructor
  · simp [MmapAllocator.dealloc, nonNullNewUnchecked, hp]
  · simp [MmapAllocator.dealloc, nonNullNewUnchecked]

/-- Witness for C10 on a concrete poisoned-free state and pointer 4128. -/
theorem dealloc_no_null_check_witness :
    MmapAllocator.dealloc cfgW MmapAllocator.withDefaultConfig 4128 ⟨8, 8⟩
      = MmapAllocator.deallocate cfgW MmapAllocator.withDefaultConfig ⟨4128, by decide⟩ ⟨8, 8⟩
  ∧ MmapAllocator.dealloc cfgW MmapAllocator.withDefaultConfig 0 ⟨8, 8⟩ = none :=
  dealloc_no_null_check cfgW MmapAllocator.withDefaultConfig 4128 ⟨8, 8⟩ (by decide)

/-- If the first fitting class has index `i` (every class before `i` is too
small and class `i` fits), the dispatch scan returns `i`. -/
lemma dispatchAux_eq_some (sz : Nat) (sizes : List Nat) (i : Nat) (hi : i < sizes.length)
    (hfit : sz ≤ sizes.getD i 0)
    (hbelow : ∀ j, j < i → sizes.getD j 0 < sz) :
    dispatchAux sz sizes = some i := by
  induction sizes generalizing i with
  | nil => simp at hi
  | cons s rest ih =>
    cases i with
    | zero =>
      have hs : sz ≤ s := by simpa using hfit
      simp [dispatchAux, hs]
    | succ n =>
      have hs : s < sz := by simpa using hbelow 0 (Nat.succ_pos n)
      have hrec : dispatchAux sz rest = some n :=
        ih n (by simpa using hi) (by simpa using hfit)
          fun j hj => by simpa using hbelow (j + 1) (Nat.succ_lt_succ hj)
      simp [dispatchAux, Nat.not_le.mpr hs, hrec]

/-- If no class fits, the dispatch scan falls through to the dynamic
bucket. -/
lemma dispatchAux_eq_none (sz : Nat) (sizes : List Nat)
    (hall : ∀ j, j < sizes.length → sizes.getD j 0 < sz) :
    dispatchAux sz sizes = none := by
  induction sizes with
  | nil => rfl
  | cons s rest ih =>
    have hs : s < sz := by simpa using hall 0 (by simp)
    have hrec := ih fun j hj => by simpa using hall (j + 1) (by simpa using Nat.succ_lt_succ hj)
    simp [dispatchAux, Nat.not_le.mpr hs, hrec]

/-- Claim C1: with strictly increasing bucket size classes, `dispatch`
scans the classes in increasing index order and returns the first bucket
whose class size is ≥ the requested size, so a request of size ≤ `class[i]`
and > `class[i-1]` is served from bucket `i`, and a request exceeding
`class[N-1]` is served from the dynamic bucket (`dispatch = none`). -/
theorem dispatch_first_fit (sizes : List Nat) (hinc : List.Chain' (· < ·) sizes)
    (layout : Layout) :
    (∀ i, i < sizes.length → layout.size ≤ sizes.getD i 0 →
        (i = 0 ∨ sizes.getD (i - 1) 0 < layout.size) →
        (InternalAllocator.withBucketSizes sizes).dispatch layout = some i)
  ∧ (0 < sizes.length → sizes.getD (sizes.length - 1) 0 < layout.size →
        (InternalAllocator.withBucketSizes sizes).dispatch layout = none) := by
  have hpw : List.Pairwise (· < ·) sizes := List.chain'_iff_pairwise.mp hinc
  have hmono : ∀ j i, j < i → i < sizes.length → sizes.getD j 0 < sizes.getD i 0 := by
    intro j i hji hi
    have h := List.pairwise_iff_getElem.mp hpw j i (lt_trans hji hi) hi hji
    rwa [List.getD_eq_getElem _ _ (lt_trans hji hi), List.getD_eq_getElem _ _ hi]
  constructor
  · intro i hi hfit hprev
    show dispatchAux layout.size sizes = some i
    apply dispatchAux_eq_some layout.size sizes i hi hfit
    intro j hj
    rcases hprev with h0 | hlt
    · exact absurd hj (by omega)
    · rcases Nat.lt_or_ge j (i - 1) with hlt2 | hge
      · exact lt_trans (hmono j (i - 1) hlt2 (by omega)) hlt
      · have hje : j = i - 1 := by omega
        subst hje; exact hlt
  · intro h0 hlast
    show dispatchAux layout.size sizes = none
    apply dispatchAux_eq_none
    intro j hj
    rcases Nat.lt_or_ge j (sizes.length - 1) with hlt2 | hge
    · exact lt_trans (hmono j (sizes.length - 1) hlt2 (by omega)) hlast
    · have hje : j = sizes.length - 1 := by omega
      subst hje; exact hlast

/-- Witness for C1 on the default classes: a request of 500 bytes
(> 128, ≤ 1024) goes to bucket 1, a request of 9000 bytes (> 8192) goes
to the dynamic bucket. -/
theorem dispatch_first_fit_witness :
    (InternalAllocator.withBucketSizes [128, 1024, 8192]).dispatch ⟨500, 8⟩ = some 1
  ∧ (InternalAllocator.withBucketSizes [128, 1024, 8192]).dispatch ⟨9000, 8⟩ = none :=
  ⟨(dispatch_first_fit [128, 1024, 8192] (by norm_num [List.chain'_cons]) ⟨500, 8⟩).1 1
      (by decide) (by decide) (Or.inr (by decide)),
   (dispatch_first_fit [128, 1024, 8192] (by norm_num [List.chain'_cons]) ⟨9000, 8⟩).2
      (by decide) (by decide)⟩

/-- Updating one list entry leaves every other entry unchanged. -/
lemma getD_set_ne {α : Type} (l : List α) (i j : Nat) (hij : i ≠ j) (b d : α) :
    (l.set i b).getD j d = l.getD j d := by
  simp [List.getD_eq_getElem?_getD, List.getElem?_set_ne hij]

/-- The concrete internal allocator obtained by allocating one 500-byte
object from the default configuration (it lives in bucket 1). -/
def iaW : InternalAllocator :=
  (InternalAllocator.allocate cfgW (InternalAllocator.withBucketSizes [128, 1024, 8192])
    ⟨500, 8⟩).2

/-- Claim C9: bucket dispatch depends only on the requested size, never on
the alignment, and `allocate`/`deallocate` operate only on the dispatched
bucket — every bucket other than `dispatch layout` (and the dynamic bucket,
when a fixed bucket is dispatched) is left unchanged by both, so allocate
and deallocate with the same layout operate on the same bucket. -/
theorem dispatch_ignores_alignment (c : Config) (ia : InternalAllocator)
    (s a1 a2 : Nat) (layout : Layout) (addr : NonNullAddr) :
    ia.dispatch ⟨s, a1⟩ = ia.dispatch ⟨s, a2⟩
  ∧ (∀ j, ia.dispatch layout ≠ some j →
        ((ia.allocate c layout).2).buckets.getD j Bucket.new = ia.buckets.getD j Bucket.new)
  ∧ (ia.dispatch layout ≠ none → ((ia.allocate c layout).2).dynBucket = ia.dynBucket)
  ∧ (∀ ia1 j, ia.deallocate c addr layout = some ia1 → ia.dispatch layout ≠ some j →
        ia1.buckets.getD j Bucket.new = ia.buckets.getD j Bucket.new)
  ∧ (∀ ia1, ia.deallocate c addr layout = some ia1 → ia.dispatch layout ≠ none →
        ia1.dynBucket = ia.dynBucket) := by
  refine ⟨rfl, ?_, ?_, ?_, ?_⟩
  · intro j hj
    cases hd : ia.dispatch layout with
    | some i =>
      have hij : i ≠ j := fun he => hj (he ▸ hd)
      simp [InternalAllocator.allocate, hd, List.getElem?_set_ne hij]
    | none => simp [InternalAllocator.allocate, hd]
  · intro hne
    cases hd : ia.dispatch layout with
    | some i => simp [InternalAllocator.allocate, hd]
    | none => exact absurd hd hne
  · intro ia1 j h hj
    cases hd : ia.dispatch layout with
    | some i =>
      have hij : i ≠ j := fun he => hj (he ▸ hd)
      rw [InternalAllocator.deallocate, hd] at h
      rcases Option.map_eq_some'.mp h with ⟨b1, _, hia1⟩
      rw [← hia1]
      exact getD_set_ne _ _ _ hij _ _
    | none =>
      rw [InternalAllocator.deallocate, hd] at h
      rcases Option.map_eq_some'.mp h with ⟨b1, _, hia1⟩
      rw [← hia1]
  · intro ia1 h hne
    cases hd : ia.dispatch layout with
    | some i =>
      rw [InternalAllocator.deallocate, hd] at h
      rcases Option.map_eq_some'.mp h with ⟨b1, _, hia1⟩
      rw [← hia1]
    | none => exact absurd hd hne

/-- Witness for C9 on the concrete state `iaW`, layout (500, 8) dispatched
to bucket 1, checked against bucket 0 and the dynamic bucket. -/
theorem dispatch_ignores_alignment_witness :
    iaW.dispatch ⟨500, 1⟩ = iaW.dispatch ⟨500, 64⟩
  ∧ ((iaW.allocate cfgW ⟨500, 8⟩).2).buckets.getD 0 Bucket.new = iaW.buckets.getD 0 Bucket.new
  ∧ ((iaW.allocate cfgW ⟨500, 8⟩).2).dynBucket = iaW.dynBucket
  ∧ (InternalAllocator.withBucketSizes [128, 1024, 8192]).buckets.getD 0 Bucket.new
      = iaW.buckets.getD 0 Bucket.new
  ∧ (InternalAllocator.withBucketSizes [128, 1024, 8192]).dynBucket = iaW.dynBucket :=
  have h := dispatch_ignores_alignment cfgW iaW 500 1 64 ⟨500, 8⟩ ⟨4128, by decide⟩
  ⟨h.1, h.2.1 0 (by decide), h.2.2.1 (by decide),
   h.2.2.2.1 _ 0 (by decide) (by decide), h.2.2.2.2 _ (by decide) (by decide)⟩

/-- Setting an entry of a list to its current value is the identity. -/
lemma set_getD_self {α : Type} (l : List α) (i : Nat) (d : α) :
    l.set i (l.getD i d) = l := by
  induction l generalizing i with
  | nil => rfl
  | cons a t ih =>
    cases i with
    | zero => simp
    | succ n =>
      show a :: t.set n (t.getD n d) = a :: t
      rw [ih n]

/-- A failed `Bucket::allocate` (page provider failure) leaves the bucket
exactly as it was. -/
lemma bucket_allocate_error_eq (c : Config) (bk : Bucket) (layout : Layout)
    (h : (Bucket.allocate c bk layout).1.isOk = false) :
    (Bucket.allocate c bk layout).2 = bk := by
  cases hf : bk.findFirstFit c layout.size with
  | some v =>
    obtain ⟨a, i, j, r, blk⟩ := v
    rw [Bucket.allocate, hf] at h
    simp [Except.isOk, Except.toBool] at h
  | none =>
    cases hm : c.mmap (c.pageAlign (layout.size + c.regionHeaderSize + c.blockHeaderSize)) with
    | none => simp [Bucket.allocate, hf, hm]
    | some base =>
      rw [Bucket.allocate, hf] at h
      simp only [hm] at h
      simp [Except.isOk, Except.toBool] at h

/-- A failed `InternalAllocator::allocate` leaves every bucket and the
dynamic bucket exactly as they were. -/
lemma internal_allocate_error_eq (c : Config) (ia : InternalAllocator) (layout : Layout)
    (h : (InternalAllocator.allocate c ia layout).1.isOk = false) :
    (InternalAllocator.allocate c ia layout).2 = ia := by
  cases hd : ia.dispatch layout with
  | some i =>
    rcases hp : Bucket.allocate c (ia.buckets.getD i Bucket.new) layout with ⟨res, b1⟩
    simp only [InternalAllocator.allocate, hd, hp] at h ⊢
    have hb1 : b1 = ia.buckets.getD i Bucket.new := by
      have hbk := bucket_allocate_error_eq c (ia.buckets.getD i Bucket.new) layout
        (by rw [hp]; simpa using h)
      rwa [hp] at hbk
    rw [hb1, set_getD_self]
  | none =>
    rcases hp : Bucket.allocate c ia.dynBucket layout with ⟨res, b1⟩
    simp only [InternalAllocator.allocate, hd, hp] at h ⊢
    have hb1 : b1 = ia.dynBucket := by
      have hbk := bucket_allocate_error_eq c ia.dynBucket layout (by rw [hp]; simpa using h)
      rwa [hp] at hbk
    rw [hb1]

/-- Claim C3: every `allocate` call that returns a failure result leaves
the allocator's entire state — every bucket's region list and free list and
the dynamic bucket — exactly as before the call; no retry happens. -/
theorem allocate_failure_preserves_state (c : Config) (st : MmapAllocator) (layout : Layout)
    (h : (MmapAllocator.allocate c st layout).1.isOk = false) :
    (MmapAllocator.allocate c st layout).2 = st := by
  rcases st with ⟨p, ia0⟩
  cases p with
  | true => simp [MmapAllocator.allocate]
  | false =>
    rcases hq : ia0.allocate c layout with ⟨res, ia1⟩
    simp only [MmapAllocator.allocate, Bool.false_eq_true, if_false, hq] at h ⊢
    have hia : ia1 = ia0 := by
      have hint := internal_allocate_error_eq c ia0 layout (by rw [hq]; simpa using h)
      rwa [hq] at hint
    simp [hia]

/-- Witness for C3: with a page provider that always fails, allocation from
the default configuration fails and the state is unchanged. -/
theorem allocate_failure_preserves_state_witness :
    (MmapAllocator.allocate cfgFail MmapAllocator.withDefaultConfig ⟨8, 8⟩).2
      = MmapAllocator.withDefaultConfig :=
  allocate_failure_preserves_state cfgFail MmapAllocator.withDefaultConfig ⟨8, 8⟩ (by decide)

/-- Claim C7: `GlobalAlloc::alloc` returns exactly the (non-null) address
the generic `allocate` returns on success, returns the null pointer exactly
when `allocate` fails, and leaves the state exactly as `allocate` does. -/
theorem alloc_null_iff_failure (c : Config) (st : MmapAllocator) (layout : Layout) :
    (∀ a : NonNullAddr, (MmapAllocator.allocate c st layout).1 = Except.ok a →
        (MmapAllocator.alloc c st layout).1 = a.val ∧ (MmapAllocator.alloc c st layout).1 ≠ 0)
  ∧ ((MmapAllocator.alloc c st layout).1 = 0 ↔
        (MmapAllocator.allocate c st layout).1 = Except.error AllocError.mk)
  ∧ (MmapAllocator.alloc c st layout).2 = (MmapAllocator.allocate c st layout).2 := by
  rcases hq : MmapAllocator.allocate c st layout with ⟨res, st1⟩
  cases res with
  | ok a =>
    refine ⟨?_, ?_, ?_⟩
    · intro a1 ha1
      simp only [hq] at ha1
      cases ha1
      have hne : a.val ≠ 0 := Nat.pos_iff_ne_zero.mp a.2
      simp [MmapAllocator.alloc, hq, hne]
    · have hne : a.val ≠ 0 := Nat.pos_iff_ne_zero.mp a.2
      simp [MmapAllocator.alloc, hq, hne]
    · simp [MmapAllocator.alloc, hq]
  | error e =>
    cases e
    refine ⟨?_, ?_, ?_⟩
    · intro a1 ha1
      simp [hq] at ha1
    · simp [MmapAllocator.alloc, hq]
    · simp [MmapAllocator.alloc, hq]

/-- Witness for C7: a concrete successful allocation where `alloc` returns
the same non-null address `allocate` does. -/
theorem alloc_null_iff_failure_witness :
    (MmapAllocator.alloc cfgW MmapAllocator.withDefaultConfig ⟨8, 8⟩).1 = (4128 : Nat)
  ∧ (MmapAllocator.alloc cfgW MmapAllocator.withDefaultConfig ⟨8, 8⟩).1 ≠ 0 :=
  (alloc_null_iff_failure cfgW MmapAllocator.withDefaultConfig ⟨8, 8⟩).1
    ⟨4128, by decide⟩ rfl

/-- Claim C4: deallocating a block marks it free, inserts it into the free
list and forward-coalesces it with every address-adjacent free block; when
the merged block spans the region's entire usable content the region is
removed from the region list and released — so allocating a single object
that required a new region and then deallocating it brings the owning
bucket's region count (and free list) back to zero.  Stated for a fresh
bucket: the allocation necessarily acquires a new region (with base `base`
supplied by the page provider), leaves exactly one region resident, and the
matching deallocate returns the bucket to the empty state. -/
theorem deallocate_releases_region (c : Config) (layout : Layout) (base : NonNullAddr)
    (hmmap : c.mmap (c.pageAlign (layout.size + c.regionHeaderSize + c.blockHeaderSize))
               = some base) :
    (Bucket.allocate c Bucket.new layout).1
      = Except.ok ⟨base.val + c.regionHeaderSize + c.blockHeaderSize,
          Nat.lt_of_lt_of_le base.2 (Nat.le_trans (Nat.le_add_right _ _) (Nat.le_add_right _ _))⟩
  ∧ ((Bucket.allocate c Bucket.new layout).2).regions.length = 1
  ∧ Bucket.deallocate c ((Bucket.allocate c Bucket.new layout).2)
      ⟨base.val + c.regionHeaderSize + c.blockHeaderSize,
        Nat.lt_of_lt_of_le base.2 (Nat.le_trans (Nat.le_add_right _ _) (Nat.le_add_right _ _))⟩
      layout = some Bucket.new := by
  have hff : Bucket.findFirstFit c { regions := [], freeList := [] } layout.size = none := rfl
  refine ⟨?_, ?_, ?_⟩
  · simp [Bucket.allocate, Bucket.new, hff, hmmap]
  · simp [Bucket.allocate, Bucket.new, hff, hmmap, Bucket.useBlock]
  · by_cases hsp : layout.size + c.blockHeaderSize + c.minBlockSize <
      c.pageAlign (layout.size + c.regionHeaderSize + c.blockHeaderSize) - c.regionHeaderSize -
        c.blockHeaderSize
    · have harith : layout.size + c.blockHeaderSize +
          (c.pageAlign (layout.size + c.regionHeaderSize + c.blockHeaderSize) -
            c.regionHeaderSize - c.blockHeaderSize - layout.size - c.blockHeaderSize) =
          c.pageAlign (layout.size + c.regionHeaderSize + c.blockHeaderSize) -
            c.regionHeaderSize - c.blockHeaderSize := by omega
      simp [Bucket.allocate, Bucket.new, hff, hmmap, Bucket.useBlock, hsp,
        Bucket.deallocate, Bucket.findBlock, Bucket.findBlock.go,
        Region.findBlock, Region.findBlock.go, Region.blockEntries, blockEntriesFrom,
        coalesceFwd, harith, List.filter_filter]
    · simp [Bucket.allocate, Bucket.new, hff, hmmap, Bucket.useBlock, hsp,
        Bucket.deallocate, Bucket.findBlock, Bucket.findBlock.go,
        Region.findBlock, Region.findBlock.go, Region.blockEntries, blockEntriesFrom,
        coalesceFwd, List.filter_filter]

/-- Witness for C4: with page size 4096 and 16-byte headers, an 8-byte
allocation from a fresh bucket acquires the region at 4096, returns content
address 4128, and deallocating it releases the region again. -/
theorem deallocate_releases_region_witness :
    (Bucket.allocate cfgW Bucket.new ⟨8, 8⟩).1 = Except.ok ⟨4128, by decide⟩
  ∧ ((Bucket.allocate cfgW Bucket.new ⟨8, 8⟩).2).regions.length = 1
  ∧ Bucket.deallocate cfgW ((Bucket.allocate cfgW Bucket.new ⟨8, 8⟩).2) ⟨4128, by decide⟩ ⟨8, 8⟩
      = some Bucket.new :=
  deallocate_releases_region cfgW ⟨8, 8⟩ ⟨4096, by decide⟩ (by decide)

end Memalloc
